import Mathlib

/-!
Verification of the Resilient Analysis Orchestration subsystem of the
`radar` repository: the provider-fallback chain, batched job submission,
status-map merging, polling cancellation, ticker resolution, and the
initial data-fetch defaults.  The definitions below are shallow
embeddings of the TypeScript source (`src/ai-services/App.tsx`,
`src/ai-services/services/llm/ollama.ts`, `src/ai-services/services/llm/gemini.ts`,
the fallback-chain module bundled with `ollama.ts`, and the financial
service module).  Strings are modelled as `List Char`; machine floats
used only opaquely (prices) are modelled as `Int`.
-/

/-- Sentiment enumeration from `src/ai-services/types.ts`. -/
inductive Sentiment where
  | Positive
  | Negative
  | Neutral
deriving DecidableEq, Repr

/-- `NewsArticle` from `src/ai-services/types.ts`. -/
structure NewsArticle where
  id : List Char
  headline : List Char
  content : List Char
  source : List Char
  timestamp : Int
  url : List Char
deriving DecidableEq, Repr

/-- `AnalyzedNews` from `src/ai-services/types.ts`: an article (spread of all
its fields) plus `sentiment` and `summary`. -/
structure AnalyzedNews where
  article : NewsArticle
  sentiment : Sentiment
  summary : List Char
deriving DecidableEq, Repr

/-- `StockPoint` from `src/ai-services/types.ts`; the float price is used
only opaquely and is modelled as `Int`. -/
structure StockPoint where
  date : List Char
  price : Int
deriving DecidableEq, Repr

/-- A forecast object as parsed from a provider response, before shape
validation: either field may be missing (`undefined`/empty in JS). -/
structure RawForecast where
  forecast : Option (List StockPoint)
  analysis : Option (List Char)
deriving DecidableEq, Repr

/-- Outcome of one `fetch` round trip, as observed by the calling code:
a parsed body, an HTTP error status (`!response.ok`), or a thrown
network/parse error. -/
inductive FetchOutcome (α : Type) where
  | ok (value : α)
  | httpError (status : Nat)
  | thrown
deriving DecidableEq, Repr

/-- Worker status of one analysis job
(`AnalysisWorkerStatus` in the financial service module). -/
inductive WorkerStatus where
  | pending
  | completed
  | failed
deriving DecidableEq, Repr

/-- `AnalysisStatus` from the financial service module. -/
structure AnalysisStatus where
  articleId : List Char
  status : WorkerStatus
  sentiment : Option Sentiment
  summary : Option (List Char)
  error : Option (List Char)
  updatedAt : List Char
deriving DecidableEq, Repr

/-- `TickerSuggestion` from the financial service module. -/
structure TickerSuggestion where
  ticker : List Char
  company_name : List Char
deriving DecidableEq, Repr

/-! ## Fallback chain (`runNewsAnalysisBatch`, `generatePriceForecast`)

The chain module tries OpenRouter, then Ollama, then Gemini.  Each
adapter attempt is an independent asynchronous call that either yields a
value or throws; we embed one attempt's outcome as an `Except` value and
the chain as a function of the three outcomes. -/

/-- The default summary synthesized when every provider fails
(`runNewsAnalysisBatch`, final catch branch). -/
def mockFailSummary : List Char := "AI analysis failed. (Mock summary)".toList

/-- `runNewsAnalysisBatch` from the fallback-chain module: empty input
short-circuits to `[]` before any provider is tried; otherwise the three
adapters are tried in order and, if all fail, a degraded result is
synthesized per input article. -/
def runNewsAnalysisBatch (r1 r2 r3 : Except (List Char) (List AnalyzedNews))
    (articles : List NewsArticle) : List AnalyzedNews :=
  if articles.isEmpty then []
  else
    match r1 with
    | .ok v => v
    | .error _ =>
      match r2 with
      | .ok v => v
      | .error _ =>
        match r3 with
        | .ok v => v
        | .error _ =>
          articles.map (fun a => ⟨a, Sentiment.Neutral, mockFailSummary⟩)

/-- `generatePriceForecast` from the fallback-chain module: the three
adapters are tried in order; if all fail the call itself throws
`"Failed to generate forecast."`. -/
def generatePriceForecast (r1 r2 r3 : Except (List Char) RawForecast) :
    Except (List Char) RawForecast :=
  match r1 with
  | .ok v => .ok v
  | .error _ =>
    match r2 with
    | .ok v => .ok v
    | .error _ =>
      match r3 with
      | .ok v => .ok v
      | .error _ => .error "Failed to generate forecast.".toList

/-- The tail of the forecast fallback chain (Ollama then Gemini),
used to state that a failed first adapter hands control to the rest. -/
def forecastFallbackTail (r2 r3 : Except (List Char) RawForecast) :
    Except (List Char) RawForecast :=
  match r2 with
  | .ok v => .ok v
  | .error _ =>
    match r3 with
    | .ok v => .ok v
    | .error _ => .error "Failed to generate forecast.".toList

/-- The shape validation shared by all three forecast adapters
(`!forecastResult.forecast || forecastResult.forecast.length !== 7 ||
!forecastResult.analysis`): the parsed object must carry a forecast
array of exactly 7 points and a truthy (present, non-empty) analysis
string. -/
def validForecastShape (r : RawForecast) : Bool :=
  match r.forecast with
  | none => false
  | some pts =>
    decide (pts.length = 7) &&
      (match r.analysis with
       | none => false
       | some a => !a.isEmpty)

/-- One forecast adapter call (`generateForecastWithOllama` /
`generateForecastWithGemini` / `generateForecastWithOpenRouter`): an
HTTP or parse failure throws, and a parsed body failing the shape
validation throws as well; the catch block rethrows a provider-tagged
error, so every failure surfaces to the chain as an error. -/
def forecastAdapterResult (providerTag : List Char)
    (resp : FetchOutcome RawForecast) : Except (List Char) RawForecast :=
  match resp with
  | .ok r =>
    if validForecastShape r then .ok r
    else .error ("Failed to generate forecast with ".toList ++ providerTag)
  | .httpError _ => .error ("Failed to generate forecast with ".toList ++ providerTag)
  | .thrown => .error ("Failed to generate forecast with ".toList ++ providerTag)

/-- `Except.isOk` helper for stating that an adapter call failed. -/
def exceptIsOk : Except (List Char) RawForecast → Bool
  | .ok _ => true
  | .error _ => false

/-! ## Batch submitter (`analyzeNews`)

`analyzeNews` clamps the configured batch size to at least 1
(`effectiveBatchSize = Math.max(1, batchSize)`) and walks the article
list in strides of that size, slicing consecutive batches and
concatenating the per-batch results in order. -/

/-- Worker for `chunkList`, structurally recursive on a fuel argument so
that it evaluates by reduction; the fuel is always instantiated with the
list length, which suffices because each step consumes at least one
element (`B ≥ 1`). -/
def chunkGo (B : Nat) : Nat → List α → List (List α)
  | _, [] => []
  | 0, _ :: _ => []
  | fuel + 1, x :: xs => ((x :: xs).take B) :: chunkGo B fuel ((x :: xs).drop B)

/-- The consecutive batches produced by the loop
`for (let i = 0; i < articles.length; i += effectiveBatchSize)`
with `batch = articles.slice(i, i + effectiveBatchSize)`; the stride
`max 1 b` mirrors the clamping of the configured size. -/
def chunkList (b : Nat) (l : List α) : List (List α) :=
  chunkGo (max 1 b) l.length l

/-- `analyzeNews` from the fallback-chain module, parameterized by the
(awaited) per-batch analysis `runBatch`: batches are submitted one after
another and their results accumulated in order. -/
def analyzeNews (runBatch : List NewsArticle → List AnalyzedNews)
    (b : Nat) (articles : List NewsArticle) : List AnalyzedNews :=
  ((chunkList b articles).map runBatch).flatten

/-! ## Status map merging (`mergeStatusMap` in `App.tsx`) -/

/-- The session's status map, keyed by article id (a JS object used as a
dictionary). -/
def StatusMap : Type := List Char → Option AnalysisStatus

/-- One assignment `next[status.articleId] = status`. -/
def setStatus (m : StatusMap) (s : AnalysisStatus) : StatusMap :=
  fun k => if k = s.articleId then some s else m k

/-- `mergeStatusMap` from `App.tsx`: an empty update list returns the
previous map unchanged; otherwise each update is written over the copy
in order (last write wins per article id). -/
def mergeStatusMap (prev : StatusMap) (updates : List AnalysisStatus) : StatusMap :=
  if updates.isEmpty then prev
  else updates.foldl setStatus prev

/-- The accumulator step of `lastFor`: keep the most recent update whose
article id is `k`. -/
def lastStep (k : List Char) (acc : Option AnalysisStatus) (s : AnalysisStatus) :
    Option AnalysisStatus :=
  if k = s.articleId then some s else acc

/-- The last update in a list that targets key `k`, mirroring the
last-write-wins effect of the `forEach` assignment loop. -/
def lastFor (k : List Char) (updates : List AnalysisStatus) : Option AnalysisStatus :=
  updates.foldl (lastStep k) none

/-- A worker status is terminal when it is `completed` or `failed`. -/
def isTerminalStatus : WorkerStatus → Bool
  | .pending => false
  | .completed => true
  | .failed => true

/-- Whether the map records a terminal status for article `a`. -/
def isTerminalAt (m : StatusMap) (a : List Char) : Bool :=
  match m a with
  | some s => isTerminalStatus s.status
  | none => false

/-! ## Ticker resolver (`resolveTicker` in `App.tsx`)

JS `toUpperCase`/`toLowerCase` are modelled on the character ranges the
directory actually uses (ASCII letters and the basic Cyrillic block),
leaving every other character unchanged. -/

/-- Model of JS `toUpperCase` on one character (ASCII `a`-`z`, Cyrillic
`а`-`я` and `ё`). -/
def jsToUpperChar (c : Char) : Char :=
  if 'a' ≤ c && c ≤ 'z' then Char.ofNat (c.toNat - 32)
  else if 'а' ≤ c && c ≤ 'я' then Char.ofNat (c.toNat - 32)
  else if c = 'ё' then 'Ё'
  else c

/-- Model of JS `toLowerCase` on one character. -/
def jsToLowerChar (c : Char) : Char :=
  if 'A' ≤ c && c ≤ 'Z' then Char.ofNat (c.toNat + 32)
  else if 'А' ≤ c && c ≤ 'Я' then Char.ofNat (c.toNat + 32)
  else if c = 'Ё' then 'ё'
  else c

/-- Whitespace recognised by the model of JS `String.prototype.trim`. -/
def isSpaceChar (c : Char) : Bool :=
  c == ' ' || c == '\t' || c == '\n' || c == '\r'

/-- Model of JS `trim`: drop leading and trailing whitespace. -/
def trimChars (l : List Char) : List Char :=
  ((l.dropWhile isSpaceChar).reverse.dropWhile isSpaceChar).reverse

/-- Whether `needle` occurs at the start of `hay`. -/
def startsWithChars : List Char → List Char → Bool
  | [], _ => true
  | _ :: _, [] => false
  | a :: as, b :: bs => a == b && startsWithChars as bs

/-- Model of JS `String.prototype.includes` (substring containment). -/
def containsSub (needle : List Char) : List Char → Bool
  | [] => needle.isEmpty
  | c :: rest => startsWithChars needle (c :: rest) || containsSub needle rest

/-- The default exchange suffix appended by resolution rule 2. -/
def misxSuffix : List Char := "@MISX".toList

/-- `resolveTicker` from `App.tsx`, traced statement by statement:
trim and reject empty input; exact (upper-cased) ticker match; ticker
match with `@MISX` appended when the input has no `@`; exact
(lower-cased) company-name match; first company-name substring match. -/
def resolveTicker (suggestions : List TickerSuggestion) (input : List Char) :
    Option TickerSuggestion :=
  let trimmed := trimChars input
  if trimmed.isEmpty then none
  else
    let upper := trimmed.map jsToUpperChar
    match suggestions.find? (fun item => item.ticker.map jsToUpperChar == upper) with
    | some direct => some direct
    | none =>
      match (if !(upper.contains '@') then
               suggestions.find?
                 (fun item => item.ticker.map jsToUpperChar == upper ++ misxSuffix)
             else none) with
      | some bySuffix => some bySuffix
      | none =>
        match suggestions.find?
            (fun item => item.company_name.map jsToLowerChar == trimmed.map jsToLowerChar) with
        | some byCompany => some byCompany
        | none =>
          suggestions.find?
            (fun item => containsSub (trimmed.map jsToLowerChar)
              (item.company_name.map jsToLowerChar))

/-- First match over an ordered list of match strategies: the spec's view
of the resolver as a prioritized rule list. -/
def firstMatch (suggestions : List TickerSuggestion) :
    List (TickerSuggestion → Bool) → Option TickerSuggestion
  | [] => none
  | r :: rs =>
    match suggestions.find? r with
    | some item => some item
    | none => firstMatch suggestions rs

/-- The resolution rules in the order stated by the spec: exact ticker,
suffixed ticker (only when the input has no exchange qualifier), exact
company name, company-name substring. -/
def tickerRules (trimmed : List Char) : List (TickerSuggestion → Bool) :=
  let upper := trimmed.map jsToUpperChar
  let lower := trimmed.map jsToLowerChar
  [fun item => item.ticker.map jsToUpperChar == upper]
    ++ (if upper.contains '@' then []
        else [fun item => item.ticker.map jsToUpperChar == upper ++ misxSuffix])
    ++ [fun item => item.company_name.map jsToLowerChar == lower,
        fun item => containsSub lower (item.company_name.map jsToLowerChar)]

/-- Modelled from the spec: the resolver as stated in §4.6 — reject
empty input, then apply the ordered rule list, first match wins. -/
def resolveTickerSpec (suggestions : List TickerSuggestion) (input : List Char) :
    Option TickerSuggestion :=
  let trimmed := trimChars input
  if trimmed.isEmpty then none
  else firstMatch suggestions (tickerRules trimmed)

/-! ## Initial data fetches (financial service module) -/

/-- `CompanyInfo` from the financial service module. -/
structure CompanyInfo where
  ticker : List Char
  company_name : List Char
deriving DecidableEq, Repr

/-- `generateMockStockData`: the loop runs `i = 60` down to `0`, pushing
one point per day; the random walk and dates are abstracted as given
sequences, keeping the deterministic shape (61 points). -/
def generateMockStockData (prices : Nat → Int) (dates : Nat → List Char) :
    List StockPoint :=
  (List.range 61).map (fun j => ⟨dates j, prices j⟩)

/-- `fetchStockData` response handling: an ok response yields
`data.quotes || []`; a non-ok response or a thrown error falls back to
the generated mock data. -/
def fetchStockData (resp : FetchOutcome (Option (List StockPoint)))
    (mock : List StockPoint) : List StockPoint :=
  match resp with
  | .ok (some quotes) => quotes
  | .ok none => []
  | .httpError _ => mock
  | .thrown => mock

/-- `fetchCompanyInfo` response handling: ok yields the parsed company;
404 returns `null`; any other non-ok status throws and is caught,
returning `null`; a thrown error returns `null`. -/
def fetchCompanyInfo (resp : FetchOutcome CompanyInfo) : Option CompanyInfo :=
  match resp with
  | .ok c => some c
  | .httpError _ => none
  | .thrown => none

/-- `fetchRecentNews` response handling: ok yields the parsed articles;
404 returns `[]`; any other non-ok status throws and is caught,
returning `[]`; a thrown error returns `[]`. -/
def fetchRecentNews (resp : FetchOutcome (List NewsArticle)) : List NewsArticle :=
  match resp with
  | .ok articles => articles
  | .httpError _ => []
  | .thrown => []

/-- Whether a fetch outcome is a failure (non-ok status or thrown). -/
def isFetchFailure : FetchOutcome α → Bool
  | .ok _ => false
  | .httpError _ => true
  | .thrown => true

/-- The `Promise.all` join of the three initial fetches: each settles
independently on its own response, so a failure of one cannot abort the
others. -/
def fetchInitialData (rc : FetchOutcome CompanyInfo)
    (rs : FetchOutcome (Option (List StockPoint))) (mock : List StockPoint)
    (rn : FetchOutcome (List NewsArticle)) :
    Option CompanyInfo × List StockPoint × List NewsArticle :=
  (fetchCompanyInfo rc, fetchStockData rs mock, fetchRecentNews rn)

/-- `sanitizedLimit` from `fetchRecentNews`:
`Math.max(1, Math.min(limit, 100))`. -/
def sanitizedLimit (limit : Int) : Int :=
  max 1 (min limit 100)

/-- The limit actually placed in the request URL, including the default
`50` used when the caller omits the argument. -/
def fetchRecentNewsLimit (limit : Option Int) : Int :=
  sanitizedLimit (limit.getD 50)

/-! ## Polling cancellation (`poll` effect in `App.tsx`)

Each run of the polling effect is one generation: the effect captures a
`cancelled` flag, the cleanup that runs on ticker change sets the flag of
the generation that was live, and a settled poll response first checks
its own generation's flag before merging (`if (cancelled) return;`).
A ticker change also replaces the session's status map wholesale
(`setAnalysisStatuses({})` in `handleTickerSubmit`). -/

/-- Client session state relevant to polling. -/
structure PollState where
  live : Nat
  cancelled : Nat → Bool
  statusMap : StatusMap

/-- Events of the polling model: a ticker change (starting generation
`newGen`) or the settlement of a poll response issued by generation
`gen`. -/
inductive PollEvent where
  | tickerChange (newGen : Nat)
  | pollResponse (gen : Nat) (statuses : List AnalysisStatus)

/-- One step of the session: a ticker change cancels the live generation,
installs the new one and discards the status map; a settled poll response
merges its statuses only if its generation is not cancelled. -/
def stepPoll (s : PollState) : PollEvent → PollState
  | .tickerChange g =>
    { live := g
      cancelled := fun g0 => if g0 = s.live then true else s.cancelled g0
      statusMap := fun _ => none }
  | .pollResponse g statuses =>
    if s.cancelled g then s
    else { s with statusMap := mergeStatusMap s.statusMap statuses }

/-! ## Concrete demo values used by counterexamples and witnesses -/

/-- The article from the spec's fallback-chain test vector. -/
def a1demo : NewsArticle :=
  ⟨"a1".toList, "X".toList, "Y".toList, "S".toList, 0, "u".toList⟩

/-- A completed analysis status for article `"a"`. -/
def statusCompletedA : AnalysisStatus :=
  ⟨"a".toList, .completed, some .Positive, some "ok".toList, none, "t1".toList⟩

/-- A later completed status for article `"a"` (a repeated poll result). -/
def statusCompletedA2 : AnalysisStatus :=
  ⟨"a".toList, .completed, some .Positive, some "ok".toList, none, "t3".toList⟩

/-- A pending analysis status for article `"a"`. -/
def statusPendingA : AnalysisStatus :=
  ⟨"a".toList, .pending, none, none, none, "t2".toList⟩

/-- A status map in which article `"a"` is already completed. -/
def mapCompletedA : StatusMap :=
  setStatus (fun _ => none) statusCompletedA

/-- A parsed forecast body with an empty forecast array: shape-invalid. -/
def rawInvalidDemo : RawForecast := ⟨some [], some "ok".toList⟩

/-- A shape-valid parsed forecast body (7 points, non-empty analysis). -/
def rawValidDemo : RawForecast :=
  ⟨some ((List.range 7).map (fun i => ⟨[], (i : Int)⟩)), some "ok".toList⟩

/-- Initial polling session state for the cancellation witness. -/
def pollState0 : PollState :=
  ⟨0, fun _ => false, fun _ => none⟩

/-- Mock stock data at a constant abstract price and date. -/
def mockDemo : List StockPoint :=
  generateMockStockData (fun _ => 100) (fun _ => "d".toList)

/-! ## Helper lemmas -/

/-- Folding `lastStep` from any accumulator equals the fold from `none`
overriding the accumulator. -/
theorem foldl_lastStep_from (k : List Char) (updates : List AnalysisStatus) :
    ∀ init : Option AnalysisStatus,
      updates.foldl (lastStep k) init = (lastFor k updates).elim init some := by
  induction updates with
  | nil => intro init; rfl
  | cons u rest ih =>
    intro init
    show rest.foldl (lastStep k) (lastStep k init u) = (lastFor k (u :: rest)).elim init some
    rw [ih (lastStep k init u)]
    have h2 : lastFor k (u :: rest) = rest.foldl (lastStep k) (lastStep k none u) := rfl
    rw [h2, ih (lastStep k none u)]
    cases h : lastFor k rest with
    | some v => rfl
    | none =>
      show lastStep k init u = (lastStep k none u).elim init some
      unfold lastStep
      by_cases hk : k = u.articleId
      · rw [if_pos hk, if_pos hk]; rfl
      · rw [if_neg hk, if_neg hk]; rfl

/-- Pointwise value of the raw update fold: the last update targeting the
key wins, otherwise the previous entry survives. -/
theorem foldl_setStatus_apply (updates : List AnalysisStatus) :
    ∀ (prev : StatusMap) (k : List Char),
      (updates.foldl setStatus prev) k = (lastFor k updates).elim (prev k) some := by
  induction updates with
  | nil => intro prev k; rfl
  | cons u rest ih =>
    intro prev k
    show (rest.foldl setStatus (setStatus prev u)) k = (lastFor k (u :: rest)).elim (prev k) some
    rw [ih (setStatus prev u) k]
    have h2 : lastFor k (u :: rest) = rest.foldl (lastStep k) (lastStep k none u) := rfl
    rw [h2, foldl_lastStep_from k rest (lastStep k none u)]
    cases h : lastFor k rest with
    | some v => rfl
    | none =>
      show setStatus prev u k = (lastStep k none u).elim (prev k) some
      unfold setStatus lastStep
      by_cases hk : k = u.articleId
      · rw [if_pos hk, if_pos hk]; rfl
      · rw [if_neg hk, if_neg hk]; rfl

/-- Pointwise value of `mergeStatusMap`: last write wins per article id. -/
theorem mergeStatusMap_apply (prev : StatusMap) (updates : List AnalysisStatus)
    (k : List Char) :
    mergeStatusMap prev updates k = (lastFor k updates).elim (prev k) some := by
  cases updates with
  | nil => rfl
  | cons u rest => exact foldl_setStatus_apply (u :: rest) prev k

/-- A hit in `lastFor` comes from an update in the list targeting `k`. -/
theorem lastFor_eq_some (k : List Char) (updates : List AnalysisStatus) :
    ∀ (init : Option AnalysisStatus) (s : AnalysisStatus),
      updates.foldl (lastStep k) init = some s →
        (s ∈ updates ∧ k = s.articleId) ∨ init = some s := by
  induction updates with
  | nil => intro init s h; exact Or.inr h
  | cons u rest ih =>
    intro init s h
    have h' : rest.foldl (lastStep k) (lastStep k init u) = some s := h
    rcases ih (lastStep k init u) s h' with hmem | hinit
    · exact Or.inl ⟨List.mem_cons_of_mem _ hmem.1, hmem.2⟩
    · unfold lastStep at hinit
      by_cases hk : k = u.articleId
      · rw [if_pos hk] at hinit
        obtain rfl : u = s := Option.some.inj hinit
        exact Or.inl ⟨List.mem_cons_self _ _, hk⟩
      · rw [if_neg hk] at hinit
        exact Or.inr hinit

/-- Specialisation of `lastFor_eq_some` to the empty accumulator. -/
theorem lastFor_mem (k : List Char) (updates : List AnalysisStatus)
    (s : AnalysisStatus) (h : lastFor k updates = some s) :
    s ∈ updates ∧ k = s.articleId := by
  rcases lastFor_eq_some k updates none s h with hmem | hinit
  · exact hmem
  · cases hinit

/-! ## Claim theorems -/

/-- Claim C6: status-map merging is idempotent — merging the same update
list twice yields a map extensionally equal to merging it once, and
merging an empty update list leaves the map unchanged. -/
theorem mergeStatusMap_idem (M : StatusMap) (U : List AnalysisStatus) :
    (∀ k, mergeStatusMap (mergeStatusMap M U) U k = mergeStatusMap M U k)
      ∧ mergeStatusMap M [] = M := by
  refine ⟨fun k => ?_, rfl⟩
  rw [mergeStatusMap_apply, mergeStatusMap_apply]
  cases h : lastFor k U with
  | some v => rfl
  | none => rfl

/-- Claim C5, counterexample: `mergeStatusMap` is unconditional
last-write-wins, so merging a `pending` update over a `completed` entry
moves the article back to non-terminal. -/
theorem mergeStatusMap_regression_cex :
    isTerminalAt mapCompletedA "a".toList = true
      ∧ isTerminalAt (mergeStatusMap mapCompletedA [statusPendingA]) "a".toList = false := by
  decide

/-- Claim C5 (amended): within a session, once an article's status is
terminal it stays terminal across any sequence of merges, provided no
merged update reports a non-terminal (`pending`) status for that article;
the merge itself is last-write-wins and does not reject regressions. -/
theorem mergeStatusMap_terminal_stable (M : StatusMap)
    (Us : List (List AnalysisStatus)) (a : List Char)
    (hU : ∀ U ∈ Us, ∀ s ∈ U, s.articleId = a → isTerminalStatus s.status = true)
    (hM : isTerminalAt M a = true) :
    isTerminalAt (Us.foldl mergeStatusMap M) a = true := by
  induction Us generalizing M with
  | nil => exact hM
  | cons U rest ih =>
    refine ih (mergeStatusMap M U) (fun V hV s hs => hU V (List.mem_cons_of_mem _ hV) s hs) ?_
    unfold isTerminalAt
    rw [mergeStatusMap_apply]
    cases h : lastFor a U with
    | none => exact hM
    | some s =>
      obtain ⟨hmem, hk⟩ := lastFor_mem a U s h
      exact hU U (List.mem_cons_self _ _) s hmem hk.symm

/-- Witness for `mergeStatusMap_terminal_stable` at a concrete session. -/
theorem mergeStatusMap_terminal_stable_witness :
    isTerminalAt (List.foldl mergeStatusMap mapCompletedA [[statusCompletedA2]]) "a".toList = true :=
  mergeStatusMap_terminal_stable mapCompletedA [[statusCompletedA2]] "a".toList
    (by decide) (by decide)

/-- Claim C2: when all three adapters fail, the forecast fallback chain
raises the final error and yields no forecast value. -/
theorem generatePriceForecast_all_fail (e1 e2 e3 : List Char) :
    generatePriceForecast (.error e1) (.error e2) (.error e3)
        = .error "Failed to generate forecast.".toList
      ∧ exceptIsOk (generatePriceForecast (.error e1) (.error e2) (.error e3)) = false :=
  ⟨rfl, rfl⟩

/-- Claim C10: the news limit requested from the API is clamped to
`[1, 100]` (below 1 raised to 1, above 100 lowered to 100), with 50 used
when the caller omits the argument. -/
theorem fetchRecentNews_limit_clamped (limit : Int) :
    sanitizedLimit limit = (if limit < 1 then 1 else if 100 < limit then 100 else limit)
      ∧ fetchRecentNewsLimit none = 50
      ∧ fetchRecentNewsLimit (some limit) = sanitizedLimit limit
      ∧ 1 ≤ sanitizedLimit limit ∧ sanitizedLimit limit ≤ 100 := by
  refine ⟨?_, by decide, rfl, ?_, ?_⟩
  · unfold sanitizedLimit
    split_ifs <;> omega
  · unfold sanitizedLimit
    omega
  · unfold sanitizedLimit
    omega

/-- Claim C1, counterexample: with all three adapters failing on the
spec's one-article input, the synthesized summary is
`"AI analysis failed. (Mock summary)"`, not `"analysis unavailable"`. -/
theorem runNewsAnalysisBatch_default_summary_cex :
    runNewsAnalysisBatch (.error []) (.error []) (.error []) [a1demo]
        = [⟨a1demo, Sentiment.Neutral, mockFailSummary⟩]
      ∧ (mockFailSummary == "analysis unavailable".toList) = false := by
  decide

/-- Claim C1 (amended): for every non-empty article list, when all three
adapters fail the chain returns exactly one synthesized result per input
article, carrying the article's fields unchanged plus
`sentiment = Neutral` and `summary = "AI analysis failed. (Mock summary)"`,
without raising an error. -/
theorem runNewsAnalysisBatch_all_fail_default (e1 e2 e3 : List Char)
    (articles : List NewsArticle) (h : articles ≠ []) :
    runNewsAnalysisBatch (.error e1) (.error e2) (.error e3) articles
      = articles.map (fun a => ⟨a, Sentiment.Neutral, mockFailSummary⟩) := by
  cases articles with
  | nil => exact absurd rfl h
  | cons x xs => rfl

/-- Witness for `runNewsAnalysisBatch_all_fail_default` on the spec's
one-article input. -/
theorem runNewsAnalysisBatch_all_fail_default_witness :
    runNewsAnalysisBatch (.error []) (.error []) (.error []) [a1demo]
      = [a1demo].map (fun a => ⟨a, Sentiment.Neutral, mockFailSummary⟩) :=
  runNewsAnalysisBatch_all_fail_default [] [] [] [a1demo] (by decide)

/-- Claim C8: a parsed forecast body failing the 7-point/non-empty-analysis
shape validation makes that adapter's call fail, and the chain treats this
exactly as a provider failure, proceeding with the remaining adapters. -/
theorem forecastShape_validation_fallback (tag : List Char) (r : RawForecast)
    (r2 r3 : Except (List Char) RawForecast)
    (h : validForecastShape r = false) :
    exceptIsOk (forecastAdapterResult tag (.ok r)) = false
      ∧ generatePriceForecast (forecastAdapterResult tag (.ok r)) r2 r3
          = forecastFallbackTail r2 r3 := by
  have hres : forecastAdapterResult tag (.ok r)
      = .error ("Failed to generate forecast with ".toList ++ tag) := by
    simp [forecastAdapterResult, h]
  rw [hres]
  exact ⟨rfl, rfl⟩

/-- Witness for `forecastShape_validation_fallback`: an empty forecast
array is rejected and hands control to the next adapter. -/
theorem forecastShape_validation_fallback_witness :
    exceptIsOk (forecastAdapterResult "Ollama.".toList (.ok rawInvalidDemo)) = false
      ∧ generatePriceForecast (forecastAdapterResult "Ollama.".toList (.ok rawInvalidDemo))
          (.ok rawValidDemo) (.error [])
          = forecastFallbackTail (.ok rawValidDemo) (.error []) :=
  forecastShape_validation_fallback "Ollama.".toList rawInvalidDemo
    (.ok rawValidDemo) (.error []) (by decide)

/-- Flattening the batches recovers the input list, whenever the fuel
covers the list and the stride is positive. -/
theorem chunkGo_flatten (B : Nat) (hB : 1 ≤ B) :
    ∀ (fuel : Nat) (l : List α), l.length ≤ fuel →
      (chunkGo B fuel l).flatten = l := by
  intro fuel
  induction fuel with
  | zero =>
    intro l hl
    have : l = [] := List.eq_nil_of_length_eq_zero (Nat.le_zero.mp hl)
    subst this
    rfl
  | succ n ih =>
    intro l hl
    cases l with
    | nil => rfl
    | cons x xs =>
      show (((x :: xs).take B) :: chunkGo B n ((x :: xs).drop B)).flatten = x :: xs
      rw [List.flatten_cons, ih ((x :: xs).drop B)]
      · exact List.take_append_drop B (x :: xs)
      · simp only [List.length_drop, List.length_cons]
        simp only [List.length_cons] at hl
        omega

/-- Every batch is non-empty and no longer than the stride. -/
theorem chunkGo_size (B : Nat) (hB : 1 ≤ B) :
    ∀ (fuel : Nat) (l : List α), l.length ≤ fuel →
      ∀ c ∈ chunkGo B fuel l, 0 < c.length ∧ c.length ≤ B := by
  intro fuel
  induction fuel with
  | zero =>
    intro l hl c hc
    have : l = [] := List.eq_nil_of_length_eq_zero (Nat.le_zero.mp hl)
    subst this
    cases hc
  | succ n ih =>
    intro l hl c hc
    cases l with
    | nil => cases hc
    | cons x xs =>
      have hc' : c ∈ ((x :: xs).take B) :: chunkGo B n ((x :: xs).drop B) := hc
      rcases List.mem_cons.mp hc' with rfl | hmem
      · constructor
        · simp only [List.length_take, List.length_cons]
          omega
        · simp only [List.length_take]
          omega
      · refine ih ((x :: xs).drop B) ?_ c hmem
        simp only [List.length_drop, List.length_cons]
        simp only [List.length_cons] at hl
        omega

/-- Claim C3: `analyzeNews` partitions the input into consecutive batches
of the effective size, submits them in order, and returns the ordered
concatenation of the per-batch results; so whenever the per-batch
analysis keeps every article (a per-article map), the combined result
covers every input article exactly once in input order, and the empty
input produces no batch (hence no provider call) and an empty result. -/
theorem analyzeNews_batching (f : NewsArticle → AnalyzedNews)
    (runBatch : List NewsArticle → List AnalyzedNews) (b : Nat)
    (articles : List NewsArticle) :
    (chunkList b articles).flatten = articles
      ∧ analyzeNews (fun bs => bs.map f) b articles = articles.map f
      ∧ (∀ c ∈ chunkList b articles, 0 < c.length ∧ c.length ≤ max 1 b)
      ∧ analyzeNews runBatch b [] = []
      ∧ chunkList b ([] : List NewsArticle) = [] := by
  have hB : 1 ≤ max 1 b := le_max_left 1 b
  have hflat : (chunkList b articles).flatten = articles :=
    chunkGo_flatten (max 1 b) hB articles.length articles le_rfl
  refine ⟨hflat, ?_, ?_, rfl, rfl⟩
  · unfold analyzeNews
    rw [← List.map_flatten, hflat]
  · exact fun c hc => chunkGo_size (max 1 b) hB articles.length articles le_rfl c hc

/-- Claim C7, counterexample: a failed price-history fetch falls back to
the generated mock series (61 points), not to an empty history. -/
theorem fetchStockData_failure_mock_cex :
    fetchStockData (.httpError 500) mockDemo = mockDemo
      ∧ mockDemo.isEmpty = false
      ∧ mockDemo.length = 61 := by
  refine ⟨rfl, ?_, ?_⟩ <;> decide

/-- Claim C7 (amended): the three initial fetches settle independently —
a failed company-info fetch degrades to `null`, a failed article fetch to
the empty list, and a failed price-history fetch to the generated mock
series of 61 points (not to an empty history); no failure aborts the
other fetches. -/
theorem initialFetch_failure_defaults (rc : FetchOutcome CompanyInfo)
    (rs : FetchOutcome (Option (List StockPoint)))
    (rn : FetchOutcome (List NewsArticle))
    (prices : Nat → Int) (dates : Nat → List Char)
    (hc : isFetchFailure rc = true) (hs : isFetchFailure rs = true)
    (hn : isFetchFailure rn = true) :
    fetchCompanyInfo rc = none
      ∧ fetchStockData rs (generateMockStockData prices dates)
          = generateMockStockData prices dates
      ∧ (generateMockStockData prices dates).length = 61
      ∧ fetchRecentNews rn = []
      ∧ fetchInitialData rc rs (generateMockStockData prices dates) rn
          = (none, generateMockStockData prices dates, []) := by
  cases rc <;> cases rs <;> cases rn <;>
    simp_all [isFetchFailure, fetchCompanyInfo, fetchStockData, fetchRecentNews,
      fetchInitialData, generateMockStockData]

/-- Witness for `initialFetch_failure_defaults` at concrete failures. -/
theorem initialFetch_failure_defaults_witness :
    fetchCompanyInfo (FetchOutcome.httpError 500 : FetchOutcome CompanyInfo) = none
      ∧ fetchStockData (.thrown) (generateMockStockData (fun _ => 100) (fun _ => "d".toList))
          = generateMockStockData (fun _ => 100) (fun _ => "d".toList)
      ∧ (generateMockStockData (fun _ => 100) (fun _ => "d".toList)).length = 61
      ∧ fetchRecentNews (FetchOutcome.httpError 404) = []
      ∧ fetchInitialData (FetchOutcome.httpError 500) (.thrown)
          (generateMockStockData (fun _ => 100) (fun _ => "d".toList))
          (FetchOutcome.httpError 404)
          = (none, generateMockStockData (fun _ => 100) (fun _ => "d".toList), []) :=
  initialFetch_failure_defaults (FetchOutcome.httpError 500) (.thrown)
    (FetchOutcome.httpError 404) (fun _ => 100) (fun _ => "d".toList)
    rfl rfl rfl

/-- A cancelled generation stays cancelled across every later event:
generations are fresh and no step ever resets a cancellation flag. -/
theorem stepPoll_cancelled_mono (s : PollState) (e : PollEvent) (g : Nat)
    (h : s.cancelled g = true) : (stepPoll s e).cancelled g = true := by
  cases e with
  | tickerChange g' =>
    show (if g = s.live then true else s.cancelled g) = true
    split
    · rfl
    · exact h
  | pollResponse g' sts =>
    show (if s.cancelled g' then s
          else { s with statusMap := mergeStatusMap s.statusMap sts }).cancelled g = true
    split
    · exact h
    · exact h

/-- `stepPoll_cancelled_mono` lifted to event sequences. -/
theorem foldl_stepPoll_cancelled_mono (evs : List PollEvent) :
    ∀ (s : PollState) (g : Nat), s.cancelled g = true →
      (evs.foldl stepPoll s).cancelled g = true := by
  induction evs with
  | nil => intro s g h; exact h
  | cons e rest ih =>
    intro s g h
    exact ih (stepPoll s e) g (stepPoll_cancelled_mono s e g h)

/-- Claim C9: a poll response issued by the session that was live before a
ticker change is discarded: after the change (and any further events) the
response leaves the whole state — in particular the new session's status
map — unchanged, because the change cancelled that generation and the
response handler checks its generation's flag before merging. -/
theorem stale_poll_discarded (s : PollState) (A B : Nat) (evs : List PollEvent)
    (sts : List AnalysisStatus) (h : s.live = A) :
    stepPoll (List.foldl stepPoll (stepPoll s (.tickerChange B)) evs) (.pollResponse A sts)
      = List.foldl stepPoll (stepPoll s (.tickerChange B)) evs := by
  have h1 : (stepPoll s (.tickerChange B)).cancelled A = true := by
    show (if A = s.live then true else s.cancelled A) = true
    rw [if_pos h.symm]
  have h2 : (List.foldl stepPoll (stepPoll s (.tickerChange B)) evs).cancelled A = true :=
    foldl_stepPoll_cancelled_mono evs _ A h1
  show (if (List.foldl stepPoll (stepPoll s (.tickerChange B)) evs).cancelled A then _ else _) = _
  rw [if_pos h2]

/-- Witness for `stale_poll_discarded`: a concrete stale response arriving
after a ticker change (with one intervening live poll) is a no-op. -/
theorem stale_poll_discarded_witness :
    stepPoll
        (List.foldl stepPoll (stepPoll pollState0 (.tickerChange 1))
          [PollEvent.pollResponse 1 [statusPendingA]])
        (.pollResponse 0 [statusCompletedA])
      = List.foldl stepPoll (stepPoll pollState0 (.tickerChange 1))
          [PollEvent.pollResponse 1 [statusPendingA]] :=
  stale_poll_discarded pollState0 0 1 [PollEvent.pollResponse 1 [statusPendingA]]
    [statusCompletedA] rfl

/-- Claim C4: the resolver applies exactly the four matching rules in the
spec's order, case-insensitively, first match wins, with not-found for
unmatched and empty/whitespace input — the source cascade coincides with
the rule-list formulation `resolveTickerSpec` on every directory and
input. -/
theorem resolveTicker_eq_spec (suggestions : List TickerSuggestion) (input : List Char) :
    resolveTicker suggestions input = resolveTickerSpec suggestions input := by
  unfold resolveTicker resolveTickerSpec tickerRules
  by_cases h : (trimChars input).isEmpty
  · simp only [h, if_true]
  · simp only [h, if_false, Bool.false_eq_true]
    cases hc : ((trimChars input).map jsToUpperChar).contains '@' with
    | true =>
      simp only [hc, Bool.not_true, if_false, firstMatch, List.append_nil, List.nil_append,
        List.cons_append, if_true]
      cases h1 : suggestions.find? (fun item => item.ticker.map jsToUpperChar == (trimChars input).map jsToUpperChar) with
      | some d => rfl
      | none =>
        cases h3 : suggestions.find? (fun item => item.company_name.map jsToLowerChar == (trimChars input).map jsToLowerChar) with
        | some c => simp
        | none =>
          cases h4 : suggestions.find? (fun item => containsSub ((trimChars input).map jsToLowerChar) (item.company_name.map jsToLowerChar)) <;> simp [h4]
    | false =>
      simp only [hc, Bool.not_false, if_true, firstMatch, List.cons_append, List.nil_append]
      cases h1 : suggestions.find? (fun item => item.ticker.map jsToUpperChar == (trimChars input).map jsToUpperChar) with
      | some d => rfl
      | none =>
        cases h2 : suggestions.find? (fun item => item.ticker.map jsToUpperChar == (trimChars input).map jsToUpperChar ++ misxSuffix) with
        | some s => rfl
        | none =>
          cases h3 : suggestions.find? (fun item => item.company_name.map jsToLowerChar == (trimChars input).map jsToLowerChar) with
          | some c => rfl
          | none =>
            cases h4 : suggestions.find? (fun item => containsSub ((trimChars input).map jsToLowerChar) (item.company_name.map jsToLowerChar)) <;> simp [h4]

/-- Sanity check: the spec's resolver test vectors, evaluated on the
source embedding. -/
theorem resolveTicker_demo_vectors :
    resolveTicker [⟨"SBER".toList, "Сбербанк".toList⟩] "sber".toList
        = some ⟨"SBER".toList, "Сбербанк".toList⟩
      ∧ resolveTicker [⟨"SBER".toList, "Сбербанк".toList⟩] "Сбербанк".toList
        = some ⟨"SBER".toList, "Сбербанк".toList⟩
      ∧ resolveTicker [⟨"SBER".toList, "Сбербанк".toList⟩] "сбер".toList
        = some ⟨"SBER".toList, "Сбербанк".toList⟩
      ∧ resolveTicker [⟨"SBER".toList, "Сбербанк".toList⟩] "nonexistent".toList = none
      ∧ resolveTicker [⟨"SBER".toList, "Сбербанк".toList⟩] "  ".toList = none := by
  decide

/-- Witness for `analyzeNews_batching` on a concrete two-article input
with batch size 2, instantiating the per-batch size bound at the single
produced batch. -/
theorem analyzeNews_batching_witness :
    (chunkList 2 [a1demo, a1demo]).flatten = [a1demo, a1demo]
      ∧ analyzeNews (fun bs => bs.map (fun a => ⟨a, Sentiment.Neutral, []⟩)) 2 [a1demo, a1demo]
          = [a1demo, a1demo].map (fun a => ⟨a, Sentiment.Neutral, []⟩)
      ∧ (0 < [a1demo, a1demo].length ∧ [a1demo, a1demo].length ≤ max 1 2)
      ∧ analyzeNews (fun bs => bs.map (fun a => ⟨a, Sentiment.Neutral, []⟩)) 2 [] = []
      ∧ chunkList 2 ([] : List NewsArticle) = [] := by
  have H := analyzeNews_batching (fun a => ⟨a, Sentiment.Neutral, []⟩)
    (fun bs => bs.map (fun a => ⟨a, Sentiment.Neutral, []⟩)) 2 [a1demo, a1demo]
  exact ⟨H.1, H.2.1, H.2.2.1 [a1demo, a1demo] (by decide), H.2.2.2.1, H.2.2.2.2⟩
